import Mathlib

/-!
# Verification of the FLUJO `ModelHandler` orchestration pipeline

Shallow embedding of `ModelHandler` (callModel / generateCompletion's tool
schema patch / processToolCalls) from the FLUJO repository, together with
proofs of the behavioural properties stated in the specification.

External collaborators (the model catalog service, the OpenAI completion
endpoint, the MCP tool service) and the platform builtins `JSON.parse`,
`uuidv4` and `Date.now` are modelled as explicit oracle parameters: the
embedding receives their outcomes as function arguments, which is the
standard way a single-threaded request/response orchestration translates
to a pure setting.  Because the embedding is pure, the source's "never
mutates its input" frame conditions hold by construction; what remains to
prove is the value-level contract (what is appended, what each result
string is, which external calls are made).
-/

namespace Flujo

/-- JSON values, the shape produced by the platform `JSON.parse` and
consumed by `JSON.stringify`.  Object fields are kept in insertion order,
as JavaScript objects do. -/
inductive Json where
  | null : Json
  | bool : Bool → Json
  | num : Int → Json
  | str : String → Json
  | arr : List Json → Json
  | obj : List (String × Json) → Json
deriving Repr

/-- One hex digit (lowercase), used by the JSON string escaper. -/
def hexDigit (n : Nat) : Char :=
  if n < 10 then Char.ofNat (48 + n) else Char.ofNat (87 + n)

/-- Escape a single character the way `JSON.stringify` escapes characters
inside string literals. -/
def jsonEscapeChar (c : Char) : String :=
  if c = '"' then "\\\""
  else if c = '\\' then "\\\\"
  else if c = '\x08' then "\\b"
  else if c = '\x0c' then "\\f"
  else if c = '\n' then "\\n"
  else if c = '\r' then "\\r"
  else if c = '\t' then "\\t"
  else if c.toNat < 32 then
    "\\u00" ++ String.singleton (hexDigit (c.toNat / 16)) ++ String.singleton (hexDigit (c.toNat % 16))
  else String.singleton c

/-- Escape a string the way `JSON.stringify` escapes string literals. -/
def jsonEscape (s : String) : String :=
  String.join (s.toList.map jsonEscapeChar)

mutual

/-- `JSON.stringify` over the `Json` model (no indentation argument, as in
the source). -/
def Json.stringify : Json → String
  | .null => "null"
  | .bool b => if b then "true" else "false"
  | .num n => toString n
  | .str s => "\"" ++ jsonEscape s ++ "\""
  | .arr xs => "[" ++ stringifyArr xs ++ "]"
  | .obj fs => "\x7b" ++ stringifyObj fs ++ "\x7d"

/-- Comma-joined serialization of a JSON array's elements. -/
def stringifyArr : List Json → String
  | [] => ""
  | [x] => Json.stringify x
  | x :: y :: rest => Json.stringify x ++ "," ++ stringifyArr (y :: rest)

/-- Comma-joined serialization of a JSON object's fields. -/
def stringifyObj : List (String × Json) → String
  | [] => ""
  | [(k, v)] => "\"" ++ jsonEscape k ++ "\":" ++ Json.stringify v
  | (k, v) :: f :: rest =>
      "\"" ++ jsonEscape k ++ "\":" ++ Json.stringify v ++ "," ++ stringifyObj (f :: rest)

end

/-- JavaScript truthiness of a JSON value. -/
def Json.truthy : Json → Bool
  | .null => false
  | .bool b => b
  | .num n => n != 0
  | .str s => s != ""
  | .arr _ => true
  | .obj _ => true

/-- `typeof v === 'object'` for a JSON value (`null` and arrays also have
typeof `object` in JavaScript). -/
def Json.isObjectLike : Json → Bool
  | .null => true
  | .arr _ => true
  | .obj _ => true
  | _ => false

/-- Property access `j[k]` on a JSON value: defined on objects (first
matching key), `undefined` (i.e. `none`) otherwise. -/
def Json.getField : Json → String → Option Json
  | .obj fs, k => (fs.find? (fun p => p.1 = k)).map (fun p => p.2)
  | _, _ => none

/-- `delete j[k]` on a copied JSON object: removes the key; identity on
non-objects. -/
def Json.removeField : Json → String → Json
  | .obj fs, k => .obj (fs.filter (fun p => p.1 ≠ k))
  | j, _ => j

/-- `j[k] = v` on a copied JSON object: replaces the key in place if
present, appends otherwise; identity on non-objects. -/
def Json.setField : Json → String → Json → Json
  | .obj fs, k, v =>
      if fs.any (fun p => p.1 = k) then
        .obj (fs.map (fun p => if p.1 = k then (k, v) else p))
      else
        .obj (fs ++ [(k, v)])
  | j, _, _ => j

/-! ## The heading-pattern regular expression

`callModel` tests the raw content against `/^## .+says:\s*\n\n/i`.  The
matcher below decides exactly that JavaScript regular expression:
`.` is any character except a line terminator, `\s` is the JavaScript
whitespace class, `says:` is matched case-insensitively, and `\s*` may
take any number of whitespace characters before the two newlines. -/

/-- JavaScript regex `.`: any character except a line terminator. -/
def isRegexDot (c : Char) : Bool :=
  c ≠ '\n' && c ≠ '\r' && c ≠ '\u2028' && c ≠ '\u2029'

/-- The JavaScript `\s` character class. -/
def isJsWhitespace (c : Char) : Bool :=
  c = ' ' || c = '\t' || c = '\n' || c = '\x0b' || c = '\x0c' || c = '\r' ||
  c = '\u00a0' || c = '\u1680' || ('\u2000' ≤ c && c ≤ '\u200a') ||
  c = '\u2028' || c = '\u2029' || c = '\u202f' || c = '\u205f' ||
  c = '\u3000' || c = '\ufeff'

/-- Case-insensitive literal match: if `cs` starts with `pat` up to
case, return the remainder. -/
def ciMatch : List Char → List Char → Option (List Char)
  | [], cs => some cs
  | _ :: _, [] => none
  | p :: ps, c :: cs => if c.toLower = p.toLower then ciMatch ps cs else none

/-- Decide `\s*\n\n` at the head of the character list: some number of
whitespace characters followed by two newlines. -/
def wsThenTwoNewlines : List Char → Bool
  | '\n' :: '\n' :: _ => true
  | c :: cs => if isJsWhitespace c then wsThenTwoNewlines cs else false
  | [] => false

/-- Decide `says:\s*\n\n` (case-insensitive) at the head of the list. -/
def saysThenBlank (cs : List Char) : Bool :=
  match ciMatch ['s', 'a', 'y', 's', ':'] cs with
  | some rest => wsThenTwoNewlines rest
  | none => false

/-- Decide `.+says:\s*\n\n` at the head of the list: at least one
non-line-terminator character, then `says:` (case-insensitive), then
whitespace and a blank line. -/
def dotPlusThenSays : List Char → Bool
  | [] => false
  | c :: cs => isRegexDot c && (saysThenBlank cs || dotPlusThenSays cs)

/-- The test `/^## .+says:\s*\n\n/i.test content` from `callModel`. -/
def hasHeadingPattern (s : String) : Bool :=
  match s.toList with
  | '#' :: '#' :: ' ' :: rest => dotPlusThenSays rest
  | _ => false

/-- Literal prefix match returning the remainder; the helper behind the
models of the JavaScript `startsWith` and `split` builtins below. -/
def dropLead : List Char → List Char → Option (List Char)
  | [], cs => some cs
  | _ :: _, [] => none
  | p :: ps, c :: cs => if c = p then dropLead ps cs else none

/-- JavaScript `s.startsWith(pre)`. -/
def jsStartsWith (s pre : String) : Bool :=
  (dropLead pre.toList s.toList).isSome

/-- Scanner for `name.split('_-_-_')`: leftmost-first match of the fixed
five-character delimiter, accumulating the current segment reversed. -/
def splitDelimGo : List Char → List Char → List (List Char)
  | '_' :: '-' :: '_' :: '-' :: '_' :: rest, acc => acc.reverse :: splitDelimGo rest []
  | c :: cs, acc => splitDelimGo cs (c :: acc)
  | [], acc => [acc.reverse]

/-- JavaScript `name.split('_-_-_')`, the only split the handler
performs. -/
def jsSplitOnDelim (s : String) : List String :=
  (splitDelimGo s.toList []).map (fun cs => String.mk cs)

/-! ## Data model (`types/modelHandler`, `shared/types/chat`, `errors`) -/

/-- `tc.function` of an OpenAI tool-call entry: tool name plus the raw
serialized argument string. -/
structure ToolCallFunction where
  name : String
  arguments : String
deriving Repr, DecidableEq

/-- `OpenAI.ChatCompletionMessageToolCall`: a tool call requested by the
completion endpoint. -/
structure RequestedToolCall where
  id : String
  function : ToolCallFunction
deriving Repr, DecidableEq

/-- `FlujoChatMessage`: one conversation message.  `tool_calls` is set on
assistant messages that request tools, `tool_call_id` only on tool-role
messages, `timestamp` is epoch millis. -/
structure FlujoChatMessage where
  id : String
  role : String
  content : String
  tool_calls : Option (List RequestedToolCall) := none
  tool_call_id : Option String := none
  timestamp : Nat
  processNodeId : Option String := none
deriving Repr, DecidableEq

/-- `ToolCallInfo` / the dispatcher's processed-call record:
`{ name, args, id, result }`. -/
structure ProcessedToolCall where
  name : String
  args : Json
  id : String
  result : String
deriving Repr

/-- `message` inside a raw completion choice; only the fields the handler
reads are modelled. -/
structure ResponseMessage where
  content : Option String := none
  tool_calls : Option (List RequestedToolCall) := none
deriving Repr

/-- One entry of `chatCompletion.choices`. -/
structure ResponseChoice where
  message : Option ResponseMessage := none
deriving Repr

/-- The raw provider response, as far as `callModel` dereferences it. -/
structure ChatCompletionResponse where
  choices : List ResponseChoice := []
deriving Repr

/-- `ExecutionError` (from `../errors`): an error descriptor with its
taxonomy kind and message.  The factory helpers attach more detail; only
the kind and message are relevant to the verified contracts. -/
structure ExecutionError where
  errType : String
  message : String
deriving Repr, DecidableEq

/-- `Result<T>` (from `../errors`): discriminated success/failure union
used by every pipeline operation. -/
inductive Result (α : Type) where
  | ok (value : α)
  | err (error : ExecutionError)
deriving Repr

/-- `ModelCallResult`: payload of a successful completion / orchestration
step. -/
structure ModelCallResult where
  content : String
  messages : List FlujoChatMessage
  fullResponse : Option ChatCompletionResponse := none
  toolCalls : Option (List ProcessedToolCall) := none
deriving Repr

/-- `ModelCallInput` for `callModel` (the tool schema list is consumed by
`generateCompletion`, whose network call is an oracle here, so it is not
carried in this structure). -/
structure ModelCallInput where
  modelId : String
  prompt : String
  messages : List FlujoChatMessage
  nodeName : String
  nodeId : String
deriving Repr

/-- A model-catalog entry, as read by `callModel` for display purposes. -/
structure CatalogModel where
  name : String
  displayName : Option String := none
deriving Repr

/-- Outcome of the `modelService.getModel` lookup that `callModel`
performs for the display prefix: the call may throw (caught and logged),
return no model, or return one. -/
inductive LookupOutcome where
  | threw (message : String)
  | value (model : Option CatalogModel)
deriving Repr

/-- JavaScript `a || b` for an optional string `a` (both `undefined` and
the empty string are falsy). -/
def jsOrString (a : Option String) (b : String) : String :=
  match a with
  | some s => if s = "" then b else s
  | none => b

/-- The `(modelDisplayName, modelTechnicalName)` pair computed at the top
of `callModel`: both start as `""` and are filled in only when the
catalog lookup returns a model (`displayName || name`, `name`). -/
def resolveDisplay : LookupOutcome → String × String
  | .threw _ => ("", "")
  | .value none => ("", "")
  | .value (some m) => (jsOrString m.displayName m.name, m.name)

/-! ## The orchestration step (`callModel`) -/

/-- `modelResponse.fullResponse?.choices?.[0]?.message?.tool_calls`. -/
def rawToolCalls (r : Option ChatCompletionResponse) : Option (List RequestedToolCall) :=
  (r.bind (fun resp => resp.choices.head?)).bind
    (fun c => c.message.bind (fun m => m.tool_calls))

/-- The content-formatting step of `callModel`: prefix with
`## <node> - <model> (<technical>) says:` and a blank line unless the
model display name is falsy or the content already carries a
`## ... says:` heading. -/
def formatContent (nodeDisplayName modelDisplayName modelTechnicalName content : String) : String :=
  if modelDisplayName ≠ "" ∧ hasHeadingPattern content = false then
    "## " ++ nodeDisplayName ++ " - " ++ modelDisplayName ++ " (" ++ modelTechnicalName ++
      ") says:\n\n" ++ content
  else content

/-- The tool-call extraction step of `callModel` (spec §4.2): map a raw
requested call to `{ name, args, id, result: "" }`, degrading to an empty
argument object when the platform parse of the argument string fails
(the failure is logged, not propagated). -/
def extractToolCallInfo (parse : String → Except String Json)
    (tc : RequestedToolCall) : ProcessedToolCall :=
  match parse tc.function.arguments with
  | .ok args => ⟨tc.function.name, args, tc.id, ""⟩
  | .error _ => ⟨tc.function.name, Json.obj [], tc.id, ""⟩

/-- `ModelHandler.callModel`.  Oracles: `parse` is the platform
`JSON.parse` (its `.error` case is the thrown `SyntaxError` message),
`lookup` is the outcome of the display-purpose catalog lookup,
`completion` is the `Result` returned by `generateCompletion` (one
network round trip), `freshId` is the `uuidv4()` draw and `now` is
`Date.now()` for the assistant message. -/
def callModel (parse : String → Except String Json) (lookup : LookupOutcome)
    (completion : Result ModelCallResult) (freshId : String) (now : Nat)
    (input : ModelCallInput) : Result ModelCallResult :=
  match completion with
  | .err e => .err e
  | .ok modelResponse =>
      let names := resolveDisplay lookup
      let prefixedContent :=
        formatContent input.nodeName names.1 names.2 modelResponse.content
      let assistantMessage : FlujoChatMessage :=
        { id := freshId
          role := "assistant"
          content := prefixedContent
          tool_calls := rawToolCalls modelResponse.fullResponse
          tool_call_id := none
          timestamp := now
          processNodeId := some input.nodeId }
      Result.ok
        { content := prefixedContent
          messages := input.messages ++ [assistantMessage]
          fullResponse := modelResponse.fullResponse
          toolCalls := (rawToolCalls modelResponse.fullResponse).map
            (fun ltc => ltc.map (extractToolCallInfo parse)) }

/-! ## The tool dispatcher (`processToolCalls`) -/

/-- Input of `processToolCalls` (`toolCalls` may be absent). -/
structure ToolCallProcessingInput where
  toolCalls : Option (List RequestedToolCall)
deriving Repr

/-- Successful payload of `processToolCalls`. -/
structure ToolCallProcessingResult where
  toolCallMessages : List FlujoChatMessage
  processedToolCalls : List ProcessedToolCall
deriving Repr

/-- A record of one invocation of `mcpService.callTool`, used to state
which external calls the dispatcher makes. -/
structure McpCall where
  serverName : String
  toolName : String
  args : Json
deriving Repr

/-- The `{ success, data?, error? }` shape returned by
`mcpService.callTool`. -/
inductive McpToolResult where
  | ok (data : Json)
  | err (message : String)
deriving Repr

/-- The body of one iteration of the `for` loop of `processToolCalls`,
including its per-call `try/catch`: returns the tool-role message, the
processed-call record, and the list of MCP invocations made (at most
one).  `freshId`/`now` are the `uuidv4()`/`Date.now()` draws of this
iteration. -/
def handleToolCall (parse : String → Except String Json)
    (mcp : String → String → Json → McpToolResult)
    (freshId : String) (now : Nat) (toolCall : RequestedToolCall) :
    FlujoChatMessage × ProcessedToolCall × List McpCall :=
  match parse toolCall.function.arguments with
  | .error emsg =>
      -- the `JSON.parse` throw lands in the per-call catch block
      (⟨freshId, "tool", "Error: " ++ emsg, none, some toolCall.id, now, none⟩,
       ⟨toolCall.function.name, Json.obj [], toolCall.id, "Error: " ++ emsg⟩, [])
  | .ok args =>
      if jsStartsWith toolCall.function.name "handoff_to_"
          || toolCall.function.name == "handoff" then
        (⟨freshId, "tool",
          Json.stringify (Json.obj [("handoff", Json.bool true), ("args", args)]),
          none, some toolCall.id, now, none⟩,
         ⟨toolCall.function.name, args, toolCall.id,
          Json.stringify (Json.obj [("handoff", Json.bool true), ("args", args)])⟩, [])
      else
        if (jsSplitOnDelim toolCall.function.name).length ≠ 3 then
          -- the `throw new Error(...)` lands in the per-call catch block
          (⟨freshId, "tool", "Error: Invalid tool name format: " ++ toolCall.function.name,
            none, some toolCall.id, now, none⟩,
           ⟨toolCall.function.name, Json.obj [], toolCall.id,
            "Error: Invalid tool name format: " ++ toolCall.function.name⟩, [])
        else
          match mcp ((jsSplitOnDelim toolCall.function.name).getD 1 "")
              ((jsSplitOnDelim toolCall.function.name).getD 2 "") args with
          | .ok data =>
              (⟨freshId, "tool", Json.stringify data, none, some toolCall.id, now, none⟩,
               ⟨toolCall.function.name, args, toolCall.id, Json.stringify data⟩,
               [⟨(jsSplitOnDelim toolCall.function.name).getD 1 "",
                 (jsSplitOnDelim toolCall.function.name).getD 2 "", args⟩])
          | .err emsg =>
              (⟨freshId, "tool", "Error: " ++ emsg, none, some toolCall.id, now, none⟩,
               ⟨toolCall.function.name, args, toolCall.id, "Error: " ++ emsg⟩,
               [⟨(jsSplitOnDelim toolCall.function.name).getD 1 "",
                 (jsSplitOnDelim toolCall.function.name).getD 2 "", args⟩])

/-- The `for` loop of `processToolCalls`: sequential, one call at a time,
accumulating messages and records in request order.  `fresh n` supplies
the `uuidv4()`/`Date.now()` pair of iteration `n`. -/
def processLoop (parse : String → Except String Json)
    (mcp : String → String → Json → McpToolResult)
    (fresh : Nat → String × Nat) :
    List RequestedToolCall →
      List FlujoChatMessage × List ProcessedToolCall × List McpCall
  | [] => ([], [], [])
  | tc :: rest =>
      let h := handleToolCall parse mcp (fresh 0).1 (fresh 0).2 tc
      let r := processLoop parse mcp (fun k => fresh (k + 1)) rest
      (h.1 :: r.1, h.2.1 :: r.2.1, h.2.2 ++ r.2.2)

/-- `ModelHandler.processToolCalls`.  Returns the `Result` together with
the trace of MCP service invocations made.  The surrounding `try/catch`
of the source can only fire on failures escaping the per-call handling
(none exist in this model, mirroring the fact that every statement of the
loop body sits inside the per-call `try`). -/
def processToolCalls (parse : String → Except String Json)
    (mcp : String → String → Json → McpToolResult)
    (fresh : Nat → String × Nat)
    (input : ToolCallProcessingInput) :
    Result ToolCallProcessingResult × List McpCall :=
  match input.toolCalls with
  | none => (.ok ⟨[], []⟩, [])
  | some l =>
      if l.length = 0 then (.ok ⟨[], []⟩, [])
      else
        let r := processLoop parse mcp fresh l
        (.ok ⟨r.1, r.2.1⟩, r.2.2)

/-! ## The tool-schema compatibility patch (`generateCompletion`)

`generateCompletion` itself is one network round trip whose outcome
enters `callModel` as the `completion` oracle; its only piece of logic
the claims bear on is the pure schema patch applied before the request is
sent (`requestParams.tools = patchedTools`). -/

/-- The `function` part of an `OpenAI.ChatCompletionTool`:
a name plus the JSON-schema `parameters` object (optional). -/
structure ToolFunctionDef where
  name : String
  parameters : Option Json := none
deriving Repr

/-- An `OpenAI.ChatCompletionTool` as inspected by the patch. -/
structure ChatCompletionTool where
  type : String
  function : ToolFunctionDef
deriving Repr

/-- JavaScript truthiness of a possibly-undefined JSON value. -/
def optTruthy : Option Json → Bool
  | some v => v.truthy
  | none => false

/-- `typeof v === 'object'` for a possibly-undefined JSON value
(`typeof undefined` is `'undefined'`). -/
def optTypeofObject : Option Json → Bool
  | some v => v.isObjectLike
  | none => false

/-- Optional-chaining property access. -/
def jsGet (o : Option Json) (k : String) : Option Json :=
  o.bind (fun j => j.getField k)

/-- `v === 'lit'` for a possibly-undefined JSON value. -/
def isStrEq : Option Json → String → Bool
  | some (.str s), t => s == t
  | _, _ => false

/-- The per-tool body of the `tools.map` patch in `generateCompletion`:
when the tool is a function tool whose parameters carry a truthy object
`properties` holding a truthy object `imageUrl` of type `'string'` with a
truthy `format`, rebuild the tool around copies with `format` deleted;
otherwise return the tool unchanged.  The conjunction below flattens the
source's nested short-circuit conditions in order. -/
def patchTool (tool : ChatCompletionTool) : ChatCompletionTool :=
  let paramsOpt := tool.function.parameters
  let propsOpt := jsGet paramsOpt "properties"
  let imageUrlOpt := jsGet propsOpt "imageUrl"
  if (tool.type == "function")
      && optTruthy paramsOpt && optTypeofObject paramsOpt
      && optTruthy propsOpt && optTypeofObject propsOpt
      && optTruthy imageUrlOpt && optTypeofObject imageUrlOpt
      && isStrEq (jsGet imageUrlOpt "type") "string"
      && optTruthy (jsGet imageUrlOpt "format") then
    match paramsOpt, propsOpt, imageUrlOpt with
    | some params, some props, some imageUrl =>
        let mutableImageUrl := imageUrl.removeField "format"
        let mutableProps := props.setField "imageUrl" mutableImageUrl
        let mutableParams := params.setField "properties" mutableProps
        { tool with function := { tool.function with parameters := some mutableParams } }
    | _, _, _ => tool
  else tool

/-- `patchedTools`, the copy of the supplied tool schemas sent on the
wire (`requestParams.tools`). -/
def patchTools (tools : List ChatCompletionTool) : List ChatCompletionTool :=
  tools.map patchTool

/-! ## Concrete example values (used by witness theorems) -/

/-- A concrete `JSON.parse` oracle: fails on the string `"bad"`, returns
`{"q":"x"}` on everything else. -/
def exParse : String → Except String Json :=
  fun s =>
    if s = "bad" then Except.error "Unexpected token b in JSON at position 0"
    else Except.ok (Json.obj [("q", Json.str "x")])

/-- A concrete MCP service oracle that always reports success with
payload `{"hits":3}`. -/
def exMcp : String → String → Json → McpToolResult :=
  fun _ _ _ => McpToolResult.ok (Json.obj [("hits", Json.num 3)])

/-- A concrete uuid/timestamp supply. -/
def exFresh : Nat → String × Nat :=
  fun n => ("uuid-" ++ toString n, 1000 + n)

/-- A concrete `ModelCallInput`. -/
def exInput : ModelCallInput :=
  { modelId := "m1", prompt := "p", messages :=
      [⟨"m-0", "user", "hi", none, none, 7, none⟩],
    nodeName := "Node", nodeId := "n1" }

/-- A concrete catalog model. -/
def exModel : CatalogModel := { name := "gpt-test", displayName := some "GPT Test" }

/-- A requested tool call whose argument string fails to parse under
`exParse`. -/
def exBadCall : RequestedToolCall := ⟨"c9", ⟨"_-_-_srv_-_-_tool", "bad"⟩⟩

/-- A requested MCP-routed tool call whose arguments parse under
`exParse`. -/
def exGoodCall : RequestedToolCall := ⟨"c1", ⟨"_-_-_search_-_-_lookup", "argstr"⟩⟩

/-- A requested handoff tool call. -/
def exHandoffCall : RequestedToolCall := ⟨"c2", ⟨"handoff_to_billing", "argstr"⟩⟩

/-- A requested tool call with an invalid (non-handoff, non-three-part)
name. -/
def exBadNameCall : RequestedToolCall := ⟨"c3", ⟨"lookup", "argstr"⟩⟩

/-- A raw completion response carrying one tool call whose argument
string fails to parse. -/
def exResponse : ChatCompletionResponse :=
  ⟨[⟨some ⟨some "hello", some [exBadCall]⟩⟩]⟩

/-- A successful completion payload carrying `exResponse`. -/
def exCompletionValue : ModelCallResult :=
  { content := "hello", messages := exInput.messages, fullResponse := some exResponse }

/-- Default message used with `List.getD` in witness statements. -/
def exDmsg : FlujoChatMessage := ⟨"", "", "", none, none, 0, none⟩

/-- Default processed-call record used with `List.getD` in witness
statements. -/
def exDrec : ProcessedToolCall := ⟨"", Json.obj [], "", ""⟩

/-- A function tool whose `imageUrl` parameter is a string with a
`format` constraint. -/
def exTool : ChatCompletionTool :=
  { type := "function"
    function :=
      { name := "draw"
        parameters := some (Json.obj
          [("type", Json.str "object"),
           ("properties", Json.obj
             [("imageUrl", Json.obj
               [("type", Json.str "string"), ("format", Json.str "uri")])])]) } }

/-! ## Helper lemmas -/

/-- The dispatcher loop produces one tool-role message per requested
call. -/
theorem processLoop_msgs_length (parse : String → Except String Json)
    (mcp : String → String → Json → McpToolResult) :
    ∀ (fresh : Nat → String × Nat) (l : List RequestedToolCall),
      ((processLoop parse mcp fresh l).1).length = l.length := by
  intro fresh l
  induction l generalizing fresh with
  | nil => rfl
  | cons tc rest ih => simp [processLoop, ih]

/-- The dispatcher loop produces one processed-call record per requested
call. -/
theorem processLoop_recs_length (parse : String → Except String Json)
    (mcp : String → String → Json → McpToolResult) :
    ∀ (fresh : Nat → String × Nat) (l : List RequestedToolCall),
      ((processLoop parse mcp fresh l).2.1).length = l.length := by
  intro fresh l
  induction l generalizing fresh with
  | nil => rfl
  | cons tc rest ih => simp [processLoop, ih]

/-- The `i`-th tool-role message of the dispatcher loop is the message of
the `i`-th requested call, handled with the `i`-th uuid/timestamp draw. -/
theorem processLoop_msgs_getD (parse : String → Except String Json)
    (mcp : String → String → Json → McpToolResult) :
    ∀ (fresh : Nat → String × Nat) (l : List RequestedToolCall) (i : Nat)
      (dm : FlujoChatMessage) (dt : RequestedToolCall), i < l.length →
      ((processLoop parse mcp fresh l).1).getD i dm =
        (handleToolCall parse mcp (fresh i).1 (fresh i).2 (l.getD i dt)).1 := by
  intro fresh l
  induction l generalizing fresh with
  | nil => intro i dm dt h; simp at h
  | cons tc rest ih =>
      intro i dm dt h
      cases i with
      | zero => rfl
      | succ n =>
          have hn : n < rest.length := by simpa using h
          simpa [processLoop] using ih (fun k => fresh (k + 1)) n dm dt hn

/-- The `i`-th processed-call record of the dispatcher loop is the record
of the `i`-th requested call. -/
theorem processLoop_recs_getD (parse : String → Except String Json)
    (mcp : String → String → Json → McpToolResult) :
    ∀ (fresh : Nat → String × Nat) (l : List RequestedToolCall) (i : Nat)
      (dr : ProcessedToolCall) (dt : RequestedToolCall), i < l.length →
      ((processLoop parse mcp fresh l).2.1).getD i dr =
        (handleToolCall parse mcp (fresh i).1 (fresh i).2 (l.getD i dt)).2.1 := by
  intro fresh l
  induction l generalizing fresh with
  | nil => intro i dr dt h; simp at h
  | cons tc rest ih =>
      intro i dr dt h
      cases i with
      | zero => rfl
      | succ n =>
          have hn : n < rest.length := by simpa using h
          simpa [processLoop] using ih (fun k => fresh (k + 1)) n dr dt hn

/-- On a non-empty call list `processToolCalls` returns the loop's
accumulated messages and records as a success, with the loop's MCP
trace. -/
theorem processToolCalls_nonempty (parse : String → Except String Json)
    (mcp : String → String → Json → McpToolResult)
    (fresh : Nat → String × Nat) (l : List RequestedToolCall)
    (h : l.length ≠ 0) :
    processToolCalls parse mcp fresh ⟨some l⟩ =
      (Result.ok ⟨(processLoop parse mcp fresh l).1, (processLoop parse mcp fresh l).2.1⟩,
       (processLoop parse mcp fresh l).2.2) := by
  simp [processToolCalls, h]

/-- Every branch of the per-call handler answers the call it was given:
the produced tool-role message carries that call's id as
`tool_call_id`. -/
theorem handleToolCall_tool_call_id (parse : String → Except String Json)
    (mcp : String → String → Json → McpToolResult)
    (u : String) (t : Nat) (tc : RequestedToolCall) :
    (handleToolCall parse mcp u t tc).1.tool_call_id = some tc.id := by
  unfold handleToolCall
  cases hp : parse tc.function.arguments with
  | error e => rfl
  | ok args =>
      simp only []
      split
      · rfl
      · split
        · rfl
        · cases mcp _ _ args <;> rfl

/-- Evaluation of the per-call handler when the argument string fails to
parse: the per-call catch records the error in-line, with empty args, and
makes no MCP call. -/
theorem handleToolCall_parse_error (parse : String → Except String Json)
    (mcp : String → String → Json → McpToolResult)
    (u : String) (t : Nat) (tc : RequestedToolCall) (emsg : String)
    (hp : parse tc.function.arguments = .error emsg) :
    handleToolCall parse mcp u t tc =
      (⟨u, "tool", "Error: " ++ emsg, none, some tc.id, t, none⟩,
       ⟨tc.function.name, Json.obj [], tc.id, "Error: " ++ emsg⟩, []) := by
  unfold handleToolCall
  rw [hp]

/-- Evaluation of the per-call handler on a handoff pseudo-tool: always a
success, the serialized `{ handoff: true, args }` payload, no MCP call. -/
theorem handleToolCall_handoff (parse : String → Except String Json)
    (mcp : String → String → Json → McpToolResult)
    (u : String) (t : Nat) (tc : RequestedToolCall) (args : Json)
    (hp : parse tc.function.arguments = .ok args)
    (hname : (jsStartsWith tc.function.name "handoff_to_"
        || tc.function.name == "handoff") = true) :
    handleToolCall parse mcp u t tc =
      (⟨u, "tool", Json.stringify (Json.obj [("handoff", Json.bool true), ("args", args)]),
        none, some tc.id, t, none⟩,
       ⟨tc.function.name, args, tc.id,
        Json.stringify (Json.obj [("handoff", Json.bool true), ("args", args)])⟩, []) := by
  unfold handleToolCall
  rw [hp]
  simp [hname]

/-- Evaluation of the per-call handler on a non-handoff name that does
not split into exactly three delimiter segments: the thrown format error
is caught per-call, recorded with empty args, and no MCP call is made. -/
theorem handleToolCall_invalid_format (parse : String → Except String Json)
    (mcp : String → String → Json → McpToolResult)
    (u : String) (t : Nat) (tc : RequestedToolCall) (args : Json)
    (hp : parse tc.function.arguments = .ok args)
    (hname : (jsStartsWith tc.function.name "handoff_to_"
        || tc.function.name == "handoff") = false)
    (hsplit : (jsSplitOnDelim tc.function.name).length ≠ 3) :
    handleToolCall parse mcp u t tc =
      (⟨u, "tool", "Error: Invalid tool name format: " ++ tc.function.name,
        none, some tc.id, t, none⟩,
       ⟨tc.function.name, Json.obj [], tc.id,
        "Error: Invalid tool name format: " ++ tc.function.name⟩, []) := by
  unfold handleToolCall
  rw [hp]
  simp [hname, hsplit]

/-- Evaluation of the per-call handler on an MCP-routed name (non-handoff,
exactly three delimiter segments): one MCP call, content serialized data
on reported success and `Error: <message>` on reported failure. -/
theorem handleToolCall_mcp (parse : String → Except String Json)
    (mcp : String → String → Json → McpToolResult)
    (u : String) (t : Nat) (tc : RequestedToolCall) (args : Json)
    (hp : parse tc.function.arguments = .ok args)
    (hname : (jsStartsWith tc.function.name "handoff_to_"
        || tc.function.name == "handoff") = false)
    (hsplit : (jsSplitOnDelim tc.function.name).length = 3) :
    handleToolCall parse mcp u t tc =
      (match mcp ((jsSplitOnDelim tc.function.name).getD 1 "")
          ((jsSplitOnDelim tc.function.name).getD 2 "") args with
       | .ok data =>
           (⟨u, "tool", Json.stringify data, none, some tc.id, t, none⟩,
            ⟨tc.function.name, args, tc.id, Json.stringify data⟩,
            [⟨(jsSplitOnDelim tc.function.name).getD 1 "",
              (jsSplitOnDelim tc.function.name).getD 2 "", args⟩])
       | .err emsg =>
           (⟨u, "tool", "Error: " ++ emsg, none, some tc.id, t, none⟩,
            ⟨tc.function.name, args, tc.id, "Error: " ++ emsg⟩,
            [⟨(jsSplitOnDelim tc.function.name).getD 1 "",
              (jsSplitOnDelim tc.function.name).getD 2 "", args⟩])) := by
  unfold handleToolCall
  rw [hp]
  simp [hname, hsplit]

/-- A JSON value with a defined property is an object. -/
theorem getField_obj (j : Json) (k : String) (v : Json)
    (h : j.getField k = some v) : ∃ fs, j = .obj fs := by
  cases j with
  | obj fs => exact ⟨fs, rfl⟩
  | _ => simp [Json.getField] at h

/-- After replacing a key that occurs in the field list, the first match
of that key is the replacement. -/
theorem find_map_replace (k : String) (v : Json) :
    ∀ (fs : List (String × Json)), fs.any (fun p => p.1 = k) = true →
      (fs.map (fun p => if p.1 = k then (k, v) else p)).find? (fun p => p.1 = k) =
        some (k, v) := by
  intro fs h
  induction fs with
  | nil => simp at h
  | cons q rest ih =>
      by_cases hq : q.1 = k
      · simp [hq]
      · have hr : rest.any (fun p => p.1 = k) = true := by
          simp only [List.any_cons] at h
          simpa [hq] using h
        simpa [hq] using ih hr

/-- Looking up a key that does not occur in the field list falls through
to an appended binding of that key. -/
theorem find_append_key (k : String) (v : Json)
    (fs : List (String × Json)) (h : fs.any (fun p => p.1 = k) = false) :
    (fs ++ [(k, v)]).find? (fun p => p.1 = k) = some (k, v) := by
  have hnone : fs.find? (fun p => decide (p.1 = k)) = none := by
    rw [List.find?_eq_none]
    intro x hx
    have := (List.any_eq_false.mp h) x hx
    simpa using this
  simp [List.find?_append, hnone]

/-- Reading back a key just written with `setField`. -/
theorem setField_getField_self (fs : List (String × Json)) (k : String) (v : Json) :
    (Json.setField (.obj fs) k v).getField k = some v := by
  by_cases h : fs.any (fun p => p.1 = k) = true
  · simp [Json.setField, Json.getField, h, find_map_replace k v fs h]
  · have hf : fs.any (fun p => p.1 = k) = false := Bool.eq_false_iff.mpr h
    simp [Json.setField, Json.getField, hf, find_append_key k v fs hf]

/-- A key deleted with `removeField` is no longer defined. -/
theorem removeField_getField_self (fs : List (String × Json)) (k : String) :
    (Json.removeField (.obj fs) k).getField k = none := by
  simp only [Json.removeField, Json.getField, Option.map_eq_none']
  rw [List.find?_eq_none]
  intro p hp
  have h2 := List.mem_filter.mp hp
  simpa using h2.2

/-! ## Claim C9 -/

/-- Claim C9: for an absent or empty requested-tool-call sequence,
`processToolCalls` returns an immediate success whose value holds an
empty `toolCallMessages` sequence and an empty `processedToolCalls`
sequence, and the MCP invocation trace is empty (zero external calls). -/
theorem processToolCalls_empty_input (parse : String → Except String Json)
    (mcp : String → String → Json → McpToolResult)
    (fresh : Nat → String × Nat) :
    processToolCalls parse mcp fresh ⟨none⟩ = (Result.ok ⟨[], []⟩, []) ∧
    processToolCalls parse mcp fresh ⟨some []⟩ = (Result.ok ⟨[], []⟩, []) :=
  ⟨rfl, rfl⟩

/-! ## Claim C1 -/

/-- Claim C1: `callModel` never mutates the input transcript (inherent to
the pure embedding); when the completion call fails, the error is
returned as-is and the failure payload carries no transcript (the `err`
constructor of `Result` holds only the error); when it succeeds, the
returned transcript is the input transcript with exactly one new
assistant message appended at the end. -/
theorem callModel_transcript_frame
    (parse : String → Except String Json) (lookup : LookupOutcome)
    (completion : Result ModelCallResult) (freshId : String) (now : Nat)
    (input : ModelCallInput) :
    (∀ e, completion = .err e →
        callModel parse lookup completion freshId now input = .err e) ∧
    (∀ v, completion = .ok v →
        ∃ r, callModel parse lookup completion freshId now input = .ok r ∧
          ∃ m, m.role = "assistant" ∧ r.messages = input.messages ++ [m]) := by
  constructor
  · intro e he; subst he; rfl
  · intro v hv; subst hv
    exact ⟨_, rfl, _, rfl, rfl⟩

/-- Witness for claim C1 at a concrete successful completion. -/
theorem callModel_transcript_frame_witness :
    ∃ r, callModel exParse (.value (some exModel)) (.ok exCompletionValue)
        "u1" 5 exInput = .ok r ∧
      ∃ m, m.role = "assistant" ∧ r.messages = exInput.messages ++ [m] :=
  (callModel_transcript_frame exParse (.value (some exModel))
    (.ok exCompletionValue) "u1" 5 exInput).2 exCompletionValue rfl

/-! ## Claim C3 -/

/-- Counterexample to claim C3 as stated: when the display-purpose
model-catalog lookup throws (a case the source catches and logs), the
resolved model display name is empty and `callModel`
stores the raw content verbatim even though it does not match the heading
pattern — it does not equal the raw content with the
`## <node> - <model> (<technical>) says:` prefix, contradicting the
claim's unconditional "otherwise" branch. -/
theorem callModel_content_counterexample :
    ∃ r, callModel exParse (LookupOutcome.threw "network down")
        (.ok { content := "hello", messages := [] }) "u1" 5 exInput = .ok r ∧
      hasHeadingPattern "hello" = false ∧
      r.content = "hello" ∧
      r.content ≠ "## Node -  () says:\n\nhello" := by
  refine ⟨_, rfl, rfl, rfl, ?_⟩
  decide

/-- Claim C3 (amended): provided the resolved model display name is
non-empty, the assistant content stored by `callModel` is the raw
completion content verbatim when it matches the
`/^## .+says:\s*\n\n/i` heading pattern, and otherwise the raw content
prefixed with `## <node> - <model> (<technical>) says:` and a blank
line. -/
theorem callModel_content_formatting
    (parse : String → Except String Json) (lookup : LookupOutcome)
    (completion : Result ModelCallResult) (freshId : String) (now : Nat)
    (input : ModelCallInput) (v : ModelCallResult)
    (hc : completion = .ok v)
    (hd : (resolveDisplay lookup).1 ≠ "") :
    ∃ r, callModel parse lookup completion freshId now input = .ok r ∧
      r.content =
        (if hasHeadingPattern v.content = true then v.content
         else "## " ++ input.nodeName ++ " - " ++ (resolveDisplay lookup).1 ++ " (" ++
           (resolveDisplay lookup).2 ++ ") says:\n\n" ++ v.content) := by
  subst hc
  refine ⟨_, rfl, ?_⟩
  show formatContent input.nodeName (resolveDisplay lookup).1 (resolveDisplay lookup).2
      v.content = _
  unfold formatContent
  cases h : hasHeadingPattern v.content with
  | true => simp [h]
  | false => simp [h, hd]

/-- Witness for claim C3 (amended) at a concrete input whose content does
not match the heading pattern and whose lookup resolves a display
name. -/
theorem callModel_content_formatting_witness :
    ∃ r, callModel exParse (.value (some exModel)) (.ok exCompletionValue)
        "u1" 5 exInput = .ok r ∧
      r.content =
        (if hasHeadingPattern exCompletionValue.content = true then exCompletionValue.content
         else "## " ++ exInput.nodeName ++ " - " ++
           (resolveDisplay (.value (some exModel))).1 ++ " (" ++
           (resolveDisplay (.value (some exModel))).2 ++ ") says:\n\n" ++
           exCompletionValue.content) :=
  callModel_content_formatting exParse (.value (some exModel)) (.ok exCompletionValue)
    "u1" 5 exInput exCompletionValue rfl (by decide)

/-! ## Claim C10 -/

/-- Claim C10: if the display-purpose model-catalog lookup throws or
yields no model (so the resolved display name is empty), `callModel`
still proceeds and succeeds whenever the completion call succeeds, and
the stored assistant content equals the raw completion content with no
prefix applied — for every content, including content that carries no
`## ... says:` heading. -/
theorem callModel_lookup_failure_raw_content
    (parse : String → Except String Json) (lookup : LookupOutcome)
    (completion : Result ModelCallResult) (freshId : String) (now : Nat)
    (input : ModelCallInput) (v : ModelCallResult)
    (hl : (∃ m, lookup = .threw m) ∨ lookup = .value none)
    (hc : completion = .ok v) :
    ∃ r, callModel parse lookup completion freshId now input = .ok r ∧
      r.content = v.content := by
  subst hc
  have hd : resolveDisplay lookup = ("", "") := by
    rcases hl with ⟨m, rfl⟩ | rfl <;> rfl
  refine ⟨_, rfl, ?_⟩
  show formatContent input.nodeName (resolveDisplay lookup).1 (resolveDisplay lookup).2
      v.content = v.content
  rw [hd]
  unfold formatContent
  simp

/-- Witness for claim C10: a failed lookup with heading-free content, the
content is stored raw. -/
theorem callModel_lookup_failure_raw_content_witness :
    ∃ r, callModel exParse (.value none)
        (.ok { content := "plain text", messages := [] }) "u1" 5 exInput = .ok r ∧
      r.content = "plain text" :=
  callModel_lookup_failure_raw_content exParse (.value none)
    (.ok { content := "plain text", messages := [] }) "u1" 5 exInput
    { content := "plain text", messages := [] } (Or.inr rfl) rfl

/-! ## Claim C7 -/

/-- Claim C7: in the tool-call extraction path of `callModel`, a failure
to parse a call's argument string is not fatal: `callModel` still
succeeds, the extracted list maps every raw requested call (so the
failing call is still emitted), and the failing call's descriptor keeps
its id and name, has the empty object as `args`, and the empty string as
`result`. -/
theorem callModel_extraction_tolerant
    (parse : String → Except String Json) (lookup : LookupOutcome)
    (completion : Result ModelCallResult) (freshId : String) (now : Nat)
    (input : ModelCallInput) (v : ModelCallResult)
    (l : List RequestedToolCall) (tc : RequestedToolCall) (emsg : String)
    (hc : completion = .ok v)
    (hl : rawToolCalls v.fullResponse = some l)
    (htc : tc ∈ l)
    (hp : parse tc.function.arguments = .error emsg) :
    ∃ r, callModel parse lookup completion freshId now input = .ok r ∧
      r.toolCalls = some (l.map (extractToolCallInfo parse)) ∧
      extractToolCallInfo parse tc ∈ l.map (extractToolCallInfo parse) ∧
      extractToolCallInfo parse tc =
        ⟨tc.function.name, Json.obj [], tc.id, ""⟩ := by
  subst hc
  refine ⟨_, rfl, ?_, ?_, ?_⟩
  · show (rawToolCalls v.fullResponse).map _ = _
    rw [hl, Option.map_some']
  · exact List.mem_map_of_mem _ htc
  · unfold extractToolCallInfo
    rw [hp]

/-- Witness for claim C7: the concrete response carries one call whose
argument string fails to parse; it is still extracted with empty args. -/
theorem callModel_extraction_tolerant_witness :
    ∃ r, callModel exParse (.value (some exModel)) (.ok exCompletionValue)
        "u1" 5 exInput = .ok r ∧
      r.toolCalls = some ([exBadCall].map (extractToolCallInfo exParse)) ∧
      extractToolCallInfo exParse exBadCall ∈ [exBadCall].map (extractToolCallInfo exParse) ∧
      extractToolCallInfo exParse exBadCall =
        ⟨exBadCall.function.name, Json.obj [], exBadCall.id, ""⟩ :=
  callModel_extraction_tolerant exParse (.value (some exModel)) (.ok exCompletionValue)
    "u1" 5 exInput exCompletionValue [exBadCall] exBadCall
    "Unexpected token b in JSON at position 0" rfl rfl (List.mem_singleton.mpr rfl) rfl

/-! ## Claim C2 -/

/-- Counterexample to claim C2 as stated: a requested call whose argument
string fails to parse does NOT abort the loop and does NOT produce a
`tool_processing_failed` failure.  On a concrete two-call input whose
first call has unparseable arguments, `processToolCalls` returns a
success `Result`, the failing call is recorded as an in-line
`Error: <parse error>` tool message with empty args, and the second call
is still processed (its MCP invocation appears in the trace). -/
theorem processToolCalls_parse_failure_counterexample :
    processToolCalls exParse exMcp exFresh ⟨some [exBadCall, exGoodCall]⟩ =
      (Result.ok
        ⟨[⟨"uuid-0", "tool", "Error: Unexpected token b in JSON at position 0",
            none, some "c9", 1000, none⟩,
          ⟨"uuid-1", "tool", "\x7b\"hits\":3\x7d", none, some "c1", 1001, none⟩],
         [⟨"_-_-_srv_-_-_tool", Json.obj [], "c9",
            "Error: Unexpected token b in JSON at position 0"⟩,
          ⟨"_-_-_search_-_-_lookup", Json.obj [("q", Json.str "x")], "c1",
            "\x7b\"hits\":3\x7d"⟩]⟩,
       [⟨"search", "lookup", Json.obj [("q", Json.str "x")]⟩]) := by
  rfl

/-- Claim C2 (amended): in `processToolCalls`, a requested call whose
argument string fails to parse IS caught by the per-call handler: the
loop does not abort (every call still yields exactly one message and one
record), `processToolCalls` returns a success `Result` (never
`tool_processing_failed` on this path), the failing call's message and
record carry `Error: <parse error message>` with empty args, and no MCP
invocation is made for that call. -/
theorem processToolCalls_parse_failure_isolated
    (parse : String → Except String Json)
    (mcp : String → String → Json → McpToolResult)
    (fresh : Nat → String × Nat) (l : List RequestedToolCall) (i : Nat)
    (emsg : String) (dmsg : FlujoChatMessage) (drec : ProcessedToolCall)
    (dtc : RequestedToolCall)
    (h1 : i < l.length)
    (hp : parse ((l.getD i dtc).function.arguments) = .error emsg) :
    (processToolCalls parse mcp fresh ⟨some l⟩).1 =
      Result.ok ⟨(processLoop parse mcp fresh l).1, (processLoop parse mcp fresh l).2.1⟩ ∧
    ((processLoop parse mcp fresh l).1).length = l.length ∧
    ((processLoop parse mcp fresh l).2.1).length = l.length ∧
    (((processLoop parse mcp fresh l).1).getD i dmsg).content = "Error: " ++ emsg ∧
    (((processLoop parse mcp fresh l).1).getD i dmsg).tool_call_id = some ((l.getD i dtc).id) ∧
    ((processLoop parse mcp fresh l).2.1).getD i drec =
      ⟨(l.getD i dtc).function.name, Json.obj [], (l.getD i dtc).id, "Error: " ++ emsg⟩ ∧
    (handleToolCall parse mcp (fresh i).1 (fresh i).2 (l.getD i dtc)).2.2 = [] := by
  have hne : l.length ≠ 0 := by omega
  have hmsg := processLoop_msgs_getD parse mcp fresh l i dmsg dtc h1
  have hrec := processLoop_recs_getD parse mcp fresh l i drec dtc h1
  have hh := handleToolCall_parse_error parse mcp (fresh i).1 (fresh i).2
    (l.getD i dtc) emsg hp
  refine ⟨?_, processLoop_msgs_length parse mcp fresh l,
    processLoop_recs_length parse mcp fresh l, ?_, ?_, ?_, ?_⟩
  · rw [processToolCalls_nonempty parse mcp fresh l hne]
  · rw [hmsg, hh]
  · rw [hmsg, hh]
  · rw [hrec, hh]
  · rw [hh]

/-- Witness for claim C2 (amended) at the concrete two-call input. -/
theorem processToolCalls_parse_failure_isolated_witness :
    (processToolCalls exParse exMcp exFresh ⟨some [exBadCall, exGoodCall]⟩).1 =
      Result.ok ⟨(processLoop exParse exMcp exFresh [exBadCall, exGoodCall]).1,
        (processLoop exParse exMcp exFresh [exBadCall, exGoodCall]).2.1⟩ ∧
    ((processLoop exParse exMcp exFresh [exBadCall, exGoodCall]).1).length = 2 ∧
    ((processLoop exParse exMcp exFresh [exBadCall, exGoodCall]).2.1).length = 2 ∧
    (((processLoop exParse exMcp exFresh [exBadCall, exGoodCall]).1).getD 0
        ⟨"", "", "", none, none, 0, none⟩).content =
      "Error: Unexpected token b in JSON at position 0" ∧
    (((processLoop exParse exMcp exFresh [exBadCall, exGoodCall]).1).getD 0
        ⟨"", "", "", none, none, 0, none⟩).tool_call_id =
      some (([exBadCall, exGoodCall].getD 0 exGoodCall).id) ∧
    ((processLoop exParse exMcp exFresh [exBadCall, exGoodCall]).2.1).getD 0
        ⟨"", Json.obj [], "", ""⟩ =
      ⟨([exBadCall, exGoodCall].getD 0 exGoodCall).function.name, Json.obj [],
       ([exBadCall, exGoodCall].getD 0 exGoodCall).id,
       "Error: Unexpected token b in JSON at position 0"⟩ ∧
    (handleToolCall exParse exMcp (exFresh 0).1 (exFresh 0).2
        ([exBadCall, exGoodCall].getD 0 exGoodCall)).2.2 = [] :=
  processToolCalls_parse_failure_isolated exParse exMcp exFresh
    [exBadCall, exGoodCall] 0 "Unexpected token b in JSON at position 0"
    ⟨"", "", "", none, none, 0, none⟩ ⟨"", Json.obj [], "", ""⟩ exGoodCall
    (by decide) rfl

/-! ## Claim C4 -/

/-- Claim C4: for a requested MCP-routed tool call (name not a handoff,
splitting into exactly three segments on the `_-_-_` delimiter, arguments
parsing successfully), `processToolCalls` succeeds, appends exactly one
tool-role message and one record per requested call, every tool-role
message (in particular this one) carries the id of the call at the same
position — so result order matches request order — and this call's
result content is the JSON serialization of the MCP data payload on
reported success and `Error: <message>` on reported failure. -/
theorem processToolCalls_mcp_route
    (parse : String → Except String Json)
    (mcp : String → String → Json → McpToolResult)
    (fresh : Nat → String × Nat) (l : List RequestedToolCall) (i : Nat)
    (args : Json) (dmsg : FlujoChatMessage) (drec : ProcessedToolCall)
    (dtc : RequestedToolCall)
    (h1 : i < l.length)
    (hname : (jsStartsWith (l.getD i dtc).function.name "handoff_to_"
        || (l.getD i dtc).function.name == "handoff") = false)
    (hsplit : (jsSplitOnDelim (l.getD i dtc).function.name).length = 3)
    (hp : parse ((l.getD i dtc).function.arguments) = .ok args) :
    (processToolCalls parse mcp fresh ⟨some l⟩).1 =
      Result.ok ⟨(processLoop parse mcp fresh l).1, (processLoop parse mcp fresh l).2.1⟩ ∧
    ((processLoop parse mcp fresh l).1).length = l.length ∧
    ((processLoop parse mcp fresh l).2.1).length = l.length ∧
    (∀ j (dm2 : FlujoChatMessage) (dt2 : RequestedToolCall), j < l.length →
      (((processLoop parse mcp fresh l).1).getD j dm2).tool_call_id =
        some ((l.getD j dt2).id)) ∧
    (((processLoop parse mcp fresh l).1).getD i dmsg).content =
      (match mcp ((jsSplitOnDelim (l.getD i dtc).function.name).getD 1 "")
          ((jsSplitOnDelim (l.getD i dtc).function.name).getD 2 "") args with
       | .ok data => Json.stringify data
       | .err emsg => "Error: " ++ emsg) ∧
    ((processLoop parse mcp fresh l).2.1).getD i drec =
      ⟨(l.getD i dtc).function.name, args, (l.getD i dtc).id,
       (match mcp ((jsSplitOnDelim (l.getD i dtc).function.name).getD 1 "")
           ((jsSplitOnDelim (l.getD i dtc).function.name).getD 2 "") args with
        | .ok data => Json.stringify data
        | .err emsg => "Error: " ++ emsg)⟩ := by
  have hne : l.length ≠ 0 := by omega
  have hmsg := processLoop_msgs_getD parse mcp fresh l i dmsg dtc h1
  have hrec := processLoop_recs_getD parse mcp fresh l i drec dtc h1
  have hh := handleToolCall_mcp parse mcp (fresh i).1 (fresh i).2
    (l.getD i dtc) args hp hname hsplit
  refine ⟨?_, processLoop_msgs_length parse mcp fresh l,
    processLoop_recs_length parse mcp fresh l, ?_, ?_, ?_⟩
  · rw [processToolCalls_nonempty parse mcp fresh l hne]
  · intro j dm2 dt2 hj
    rw [processLoop_msgs_getD parse mcp fresh l j dm2 dt2 hj]
    exact handleToolCall_tool_call_id parse mcp (fresh j).1 (fresh j).2 (l.getD j dt2)
  · rw [hmsg, hh]
    cases mcp ((jsSplitOnDelim (l.getD i dtc).function.name).getD 1 "")
      ((jsSplitOnDelim (l.getD i dtc).function.name).getD 2 "") args <;> rfl
  · rw [hrec, hh]
    cases mcp ((jsSplitOnDelim (l.getD i dtc).function.name).getD 1 "")
      ((jsSplitOnDelim (l.getD i dtc).function.name).getD 2 "") args <;> rfl

/-- Witness for claim C4 on the single MCP-routed call `exGoodCall`
against the always-successful `exMcp` service. -/
theorem processToolCalls_mcp_route_witness :
    (processToolCalls exParse exMcp exFresh ⟨some [exGoodCall]⟩).1 =
      Result.ok ⟨(processLoop exParse exMcp exFresh [exGoodCall]).1,
        (processLoop exParse exMcp exFresh [exGoodCall]).2.1⟩ ∧
    ((processLoop exParse exMcp exFresh [exGoodCall]).1).length = 1 ∧
    ((processLoop exParse exMcp exFresh [exGoodCall]).2.1).length = 1 ∧
    (∀ j (dm2 : FlujoChatMessage) (dt2 : RequestedToolCall), j < (1 : Nat) →
      (((processLoop exParse exMcp exFresh [exGoodCall]).1).getD j dm2).tool_call_id =
        some (([exGoodCall].getD j dt2).id)) ∧
    (((processLoop exParse exMcp exFresh [exGoodCall]).1).getD 0 exDmsg).content =
      (match exMcp ((jsSplitOnDelim ([exGoodCall].getD 0 exBadCall).function.name).getD 1 "")
          ((jsSplitOnDelim ([exGoodCall].getD 0 exBadCall).function.name).getD 2 "")
          (Json.obj [("q", Json.str "x")]) with
       | .ok data => Json.stringify data
       | .err emsg => "Error: " ++ emsg) ∧
    ((processLoop exParse exMcp exFresh [exGoodCall]).2.1).getD 0 exDrec =
      ⟨([exGoodCall].getD 0 exBadCall).function.name, Json.obj [("q", Json.str "x")],
       ([exGoodCall].getD 0 exBadCall).id,
       (match exMcp ((jsSplitOnDelim ([exGoodCall].getD 0 exBadCall).function.name).getD 1 "")
           ((jsSplitOnDelim ([exGoodCall].getD 0 exBadCall).function.name).getD 2 "")
           (Json.obj [("q", Json.str "x")]) with
        | .ok data => Json.stringify data
        | .err emsg => "Error: " ++ emsg)⟩ := by
  have h := processToolCalls_mcp_route exParse exMcp exFresh [exGoodCall] 0
    (Json.obj [("q", Json.str "x")]) exDmsg exDrec exBadCall
    (by decide) (by decide) (by decide) rfl
  simpa using h

/-! ## Claim C5 -/

/-- Claim C5: a requested call whose name is not a handoff and does not
split into exactly three `_-_-_` segments (with parseable arguments) is
recorded as an `Invalid tool name format` error result for that call
only: `processToolCalls` still succeeds, processes every call in the
sequence (one message and one record each), and makes no MCP invocation
for that call. -/
theorem processToolCalls_invalid_name_isolated
    (parse : String → Except String Json)
    (mcp : String → String → Json → McpToolResult)
    (fresh : Nat → String × Nat) (l : List RequestedToolCall) (i : Nat)
    (args : Json) (dmsg : FlujoChatMessage) (drec : ProcessedToolCall)
    (dtc : RequestedToolCall)
    (h1 : i < l.length)
    (hname : (jsStartsWith (l.getD i dtc).function.name "handoff_to_"
        || (l.getD i dtc).function.name == "handoff") = false)
    (hsplit : (jsSplitOnDelim (l.getD i dtc).function.name).length ≠ 3)
    (hp : parse ((l.getD i dtc).function.arguments) = .ok args) :
    (processToolCalls parse mcp fresh ⟨some l⟩).1 =
      Result.ok ⟨(processLoop parse mcp fresh l).1, (processLoop parse mcp fresh l).2.1⟩ ∧
    ((processLoop parse mcp fresh l).1).length = l.length ∧
    ((processLoop parse mcp fresh l).2.1).length = l.length ∧
    (((processLoop parse mcp fresh l).1).getD i dmsg).content =
      "Error: Invalid tool name format: " ++ (l.getD i dtc).function.name ∧
    (((processLoop parse mcp fresh l).1).getD i dmsg).tool_call_id =
      some ((l.getD i dtc).id) ∧
    ((processLoop parse mcp fresh l).2.1).getD i drec =
      ⟨(l.getD i dtc).function.name, Json.obj [], (l.getD i dtc).id,
       "Error: Invalid tool name format: " ++ (l.getD i dtc).function.name⟩ ∧
    (handleToolCall parse mcp (fresh i).1 (fresh i).2 (l.getD i dtc)).2.2 = [] := by
  have hne : l.length ≠ 0 := by omega
  have hmsg := processLoop_msgs_getD parse mcp fresh l i dmsg dtc h1
  have hrec := processLoop_recs_getD parse mcp fresh l i drec dtc h1
  have hh := handleToolCall_invalid_format parse mcp (fresh i).1 (fresh i).2
    (l.getD i dtc) args hp hname hsplit
  refine ⟨?_, processLoop_msgs_length parse mcp fresh l,
    processLoop_recs_length parse mcp fresh l, ?_, ?_, ?_, ?_⟩
  · rw [processToolCalls_nonempty parse mcp fresh l hne]
  · rw [hmsg, hh]
  · rw [hmsg, hh]
  · rw [hrec, hh]
  · rw [hh]

/-- Witness for claim C5 on the single invalid-name call
`exBadNameCall` (name `lookup`, one delimiter segment). -/
theorem processToolCalls_invalid_name_isolated_witness :
    (processToolCalls exParse exMcp exFresh ⟨some [exBadNameCall]⟩).1 =
      Result.ok ⟨(processLoop exParse exMcp exFresh [exBadNameCall]).1,
        (processLoop exParse exMcp exFresh [exBadNameCall]).2.1⟩ ∧
    ((processLoop exParse exMcp exFresh [exBadNameCall]).1).length = 1 ∧
    ((processLoop exParse exMcp exFresh [exBadNameCall]).2.1).length = 1 ∧
    (((processLoop exParse exMcp exFresh [exBadNameCall]).1).getD 0 exDmsg).content =
      "Error: Invalid tool name format: " ++ ([exBadNameCall].getD 0 exBadCall).function.name ∧
    (((processLoop exParse exMcp exFresh [exBadNameCall]).1).getD 0 exDmsg).tool_call_id =
      some (([exBadNameCall].getD 0 exBadCall).id) ∧
    ((processLoop exParse exMcp exFresh [exBadNameCall]).2.1).getD 0 exDrec =
      ⟨([exBadNameCall].getD 0 exBadCall).function.name, Json.obj [],
       ([exBadNameCall].getD 0 exBadCall).id,
       "Error: Invalid tool name format: " ++ ([exBadNameCall].getD 0 exBadCall).function.name⟩ ∧
    (handleToolCall exParse exMcp (exFresh 0).1 (exFresh 0).2
        ([exBadNameCall].getD 0 exBadCall)).2.2 = [] := by
  have h := processToolCalls_invalid_name_isolated exParse exMcp exFresh
    [exBadNameCall] 0 (Json.obj [("q", Json.str "x")]) exDmsg exDrec exBadCall
    (by decide) (by decide) (by decide) rfl
  simpa using h

/-! ## Claim C6 -/

/-- Claim C6: a requested call whose name starts with `handoff_to_` or
equals `handoff`, with parseable arguments, is handled locally and always
succeeds: the result content is the JSON serialization of
`{ handoff: true, args }`, no MCP invocation is made for it, and exactly
one tool-role message (answering the call's id) plus one record are
appended. -/
theorem processToolCalls_handoff_local
    (parse : String → Except String Json)
    (mcp : String → String → Json → McpToolResult)
    (fresh : Nat → String × Nat) (l : List RequestedToolCall) (i : Nat)
    (args : Json) (dmsg : FlujoChatMessage) (drec : ProcessedToolCall)
    (dtc : RequestedToolCall)
    (h1 : i < l.length)
    (hname : (jsStartsWith (l.getD i dtc).function.name "handoff_to_"
        || (l.getD i dtc).function.name == "handoff") = true)
    (hp : parse ((l.getD i dtc).function.arguments) = .ok args) :
    (processToolCalls parse mcp fresh ⟨some l⟩).1 =
      Result.ok ⟨(processLoop parse mcp fresh l).1, (processLoop parse mcp fresh l).2.1⟩ ∧
    ((processLoop parse mcp fresh l).1).length = l.length ∧
    ((processLoop parse mcp fresh l).2.1).length = l.length ∧
    (((processLoop parse mcp fresh l).1).getD i dmsg).content =
      Json.stringify (Json.obj [("handoff", Json.bool true), ("args", args)]) ∧
    (((processLoop parse mcp fresh l).1).getD i dmsg).tool_call_id =
      some ((l.getD i dtc).id) ∧
    ((processLoop parse mcp fresh l).2.1).getD i drec =
      ⟨(l.getD i dtc).function.name, args, (l.getD i dtc).id,
       Json.stringify (Json.obj [("handoff", Json.bool true), ("args", args)])⟩ ∧
    (handleToolCall parse mcp (fresh i).1 (fresh i).2 (l.getD i dtc)).2.2 = [] := by
  have hne : l.length ≠ 0 := by omega
  have hmsg := processLoop_msgs_getD parse mcp fresh l i dmsg dtc h1
  have hrec := processLoop_recs_getD parse mcp fresh l i drec dtc h1
  have hh := handleToolCall_handoff parse mcp (fresh i).1 (fresh i).2
    (l.getD i dtc) args hp hname
  refine ⟨?_, processLoop_msgs_length parse mcp fresh l,
    processLoop_recs_length parse mcp fresh l, ?_, ?_, ?_, ?_⟩
  · rw [processToolCalls_nonempty parse mcp fresh l hne]
  · rw [hmsg, hh]
  · rw [hmsg, hh]
  · rw [hrec, hh]
  · rw [hh]

/-- Witness for claim C6 on the single handoff call `exHandoffCall`
(name `handoff_to_billing`). -/
theorem processToolCalls_handoff_local_witness :
    (processToolCalls exParse exMcp exFresh ⟨some [exHandoffCall]⟩).1 =
      Result.ok ⟨(processLoop exParse exMcp exFresh [exHandoffCall]).1,
        (processLoop exParse exMcp exFresh [exHandoffCall]).2.1⟩ ∧
    ((processLoop exParse exMcp exFresh [exHandoffCall]).1).length = 1 ∧
    ((processLoop exParse exMcp exFresh [exHandoffCall]).2.1).length = 1 ∧
    (((processLoop exParse exMcp exFresh [exHandoffCall]).1).getD 0 exDmsg).content =
      Json.stringify (Json.obj [("handoff", Json.bool true),
        ("args", Json.obj [("q", Json.str "x")])]) ∧
    (((processLoop exParse exMcp exFresh [exHandoffCall]).1).getD 0 exDmsg).tool_call_id =
      some (([exHandoffCall].getD 0 exBadCall).id) ∧
    ((processLoop exParse exMcp exFresh [exHandoffCall]).2.1).getD 0 exDrec =
      ⟨([exHandoffCall].getD 0 exBadCall).function.name, Json.obj [("q", Json.str "x")],
       ([exHandoffCall].getD 0 exBadCall).id,
       Json.stringify (Json.obj [("handoff", Json.bool true),
         ("args", Json.obj [("q", Json.str "x")])])⟩ ∧
    (handleToolCall exParse exMcp (exFresh 0).1 (exFresh 0).2
        ([exHandoffCall].getD 0 exBadCall)).2.2 = [] := by
  have h := processToolCalls_handoff_local exParse exMcp exFresh
    [exHandoffCall] 0 (Json.obj [("q", Json.str "x")]) exDmsg exDrec exBadCall
    (by decide) (by decide) rfl
  simpa using h

/-- A JSON object is truthy. -/
theorem truthy_obj (fs : List (String × Json)) : (Json.obj fs).truthy = true := rfl

/-- A JSON object has typeof `object`. -/
theorem isObjectLike_obj (fs : List (String × Json)) :
    (Json.obj fs).isObjectLike = true := rfl

/-! ## Claim C8 -/

/-- Claim C8: in the wire copy of the tool schemas
(`patchTools`, assigned to `requestParams.tools`), any function tool
whose parameters contain a string-typed `imageUrl` property carrying a
(truthy) `format` constraint has that constraint absent; the patched tool
is a rebuilt copy, and the caller's original schema values are untouched
by construction of the pure embedding (the source builds the copy with
spreads and deletes `format` only on the copy). -/
theorem patchTools_strips_imageUrl_format
    (tools : List ChatCompletionTool) (tool : ChatCompletionTool)
    (params props imageUrl f : Json)
    (ht : tool ∈ tools)
    (hty : tool.type = "function")
    (hpar : tool.function.parameters = some params)
    (hprops : params.getField "properties" = some props)
    (hiu : props.getField "imageUrl" = some imageUrl)
    (htype : imageUrl.getField "type" = some (Json.str "string"))
    (hfmt : imageUrl.getField "format" = some f)
    (hf : f.truthy = true) :
    patchTool tool ∈ patchTools tools ∧
    ∃ params2 props2 iu2,
      (patchTool tool).function.parameters = some params2 ∧
      params2.getField "properties" = some props2 ∧
      props2.getField "imageUrl" = some iu2 ∧
      iu2.getField "format" = none := by
  refine ⟨List.mem_map_of_mem _ ht, ?_⟩
  obtain ⟨pfs, hp2⟩ := getField_obj _ _ _ hprops
  obtain ⟨sfs, hs2⟩ := getField_obj _ _ _ hiu
  obtain ⟨ifs, hi2⟩ := getField_obj _ _ _ htype
  subst hp2; subst hs2; subst hi2
  have hguard :
      ((tool.type == "function")
        && optTruthy tool.function.parameters
        && optTypeofObject tool.function.parameters
        && optTruthy (jsGet tool.function.parameters "properties")
        && optTypeofObject (jsGet tool.function.parameters "properties")
        && optTruthy (jsGet (jsGet tool.function.parameters "properties") "imageUrl")
        && optTypeofObject (jsGet (jsGet tool.function.parameters "properties") "imageUrl")
        && isStrEq (jsGet (jsGet (jsGet tool.function.parameters "properties") "imageUrl") "type")
            "string"
        && optTruthy (jsGet (jsGet (jsGet tool.function.parameters "properties") "imageUrl")
            "format")) = true := by
    simp [hty, hpar, jsGet, hprops, hiu, htype, hfmt, hf,
      optTruthy, optTypeofObject, isStrEq, truthy_obj, isObjectLike_obj]
  refine ⟨(Json.obj pfs).setField "properties"
      ((Json.obj sfs).setField "imageUrl" ((Json.obj ifs).removeField "format")),
    (Json.obj sfs).setField "imageUrl" ((Json.obj ifs).removeField "format"),
    (Json.obj ifs).removeField "format", ?_, ?_, ?_, ?_⟩
  · simp only [patchTool]
    rw [if_pos hguard]
    simp [jsGet, hpar, hprops, hiu]
  · exact setField_getField_self pfs "properties" _
  · exact setField_getField_self sfs "imageUrl" _
  · exact removeField_getField_self ifs "format"

/-- Witness for claim C8 on the concrete tool `exTool`, whose `imageUrl`
parameter carries `format: "uri"`. -/
theorem patchTools_strips_imageUrl_format_witness :
    patchTool exTool ∈ patchTools [exTool] ∧
    ∃ params2 props2 iu2,
      (patchTool exTool).function.parameters = some params2 ∧
      params2.getField "properties" = some props2 ∧
      props2.getField "imageUrl" = some iu2 ∧
      iu2.getField "format" = none :=
  patchTools_strips_imageUrl_format [exTool] exTool
    (Json.obj
      [("type", Json.str "object"),
       ("properties", Json.obj
         [("imageUrl", Json.obj
           [("type", Json.str "string"), ("format", Json.str "uri")])])])
    (Json.obj
      [("imageUrl", Json.obj
        [("type", Json.str "string"), ("format", Json.str "uri")])])
    (Json.obj [("type", Json.str "string"), ("format", Json.str "uri")])
    (Json.str "uri")
    (List.mem_singleton.mpr rfl) rfl rfl rfl rfl rfl rfl rfl

end Flujo
